import Mathlib

/-!
Verification of the EC2 instance-metadata client library
(`aws-instance-metadata-rs`, file `src/lib.rs`) against its
natural-language specification.

The library performs a strictly ordered sequence of HTTP requests against
fixed metadata URLs.  The HTTP transport (the `ureq` crate) and the JSON
parser (the `json` crate) are external collaborators; they are embedded
abstractly: a `Transport` records, for the token endpoint and for each
metadata URL, the outcome the transport would deliver, and a `JsonParse`
is an arbitrary parsing function.  Everything else — the region table, the
region resolver, the account-id extractor, the error mapping, and the
request sequence of `get` — is translated directly from the source.
-/

/-- Outcome of one `ureq` call, as observed by the client code.
`failed` is `call()` returning `Err` — a transport error or a non-2xx
status (both are `Err` in ureq); it carries the diagnostic text that
`format!("{:?}", error)` would render.  `succeeded` is a 2xx response,
whose body read (`into_string()`) either yields the body text or an
I/O error with its diagnostic text. -/
inductive CallResult where
  | failed (diag : String)
  | succeeded (body : Except String String)

/-- The closed set of metadata fields the client fetches (enum
`MetadataUrls` in the source). -/
inductive MetadataUrls where
  | InstanceId
  | AmiId
  | AccountId
  | AvailabilityZone
  | InstanceType
  | Hostname
  | LocalHostname
  | PublicHostname
deriving DecidableEq

/-- The fixed URL of each metadata field (the `Into<&'static str>`
implementation for `MetadataUrls`). -/
def urlOf : MetadataUrls → String
  | .InstanceId => "http://169.254.169.254/latest/meta-data/instance-id"
  | .AmiId => "http://169.254.169.254/latest/meta-data/ami-id"
  | .AccountId => "http://169.254.169.254/latest/meta-data/identity-credentials/ec2/info"
  | .AvailabilityZone => "http://169.254.169.254/latest/meta-data/placement/availability-zone"
  | .InstanceType => "http://169.254.169.254/latest/meta-data/instance-type"
  | .Hostname => "http://169.254.169.254/latest/meta-data/hostname"
  | .LocalHostname => "http://169.254.169.254/latest/meta-data/local-hostname"
  | .PublicHostname => "http://169.254.169.254/latest/meta-data/public-hostname"

/-- `TOKEN_API_URL` in `get_token`. -/
def TOKEN_API_URL : String := "http://169.254.169.254/latest/api/token"

/-- The error enum of the source (each variant carries the formatted
diagnostic text; `NotFound` carries the static URL that failed). -/
inductive Error where
  | HttpRequest (s : String)
  | IoError (s : String)
  | UnknownAvailabilityZone (s : String)
  | JsonError (s : String)
  | NotFound (s : String)
deriving DecidableEq

/-- Equality of `Except` values is decidable when it is on both sides
(used only to evaluate concrete runs in witnesses). -/
instance {ε α : Type} [DecidableEq ε] [DecidableEq α] : DecidableEq (Except ε α) := fun
  | .error a, .error b => decidable_of_iff (a = b) (by simp)
  | .error _, .ok _ => isFalse (fun h => Except.noConfusion h)
  | .ok _, .error _ => isFalse (fun h => Except.noConfusion h)
  | .ok a, .ok b => decidable_of_iff (a = b) (by simp)

/-- Rust `str::starts_with` on string slices: the receiver's character
sequence begins with the pattern's character sequence. -/
def strStartsWith (s pat : String) : Bool :=
  pat.data.isPrefixOf s.data

/-- The constant `REGIONS` table of `availability_zone_to_region`,
in its exact declared order. -/
def REGIONS : List String := [
  "ap-south-1",
  "eu-west-3",
  "eu-north-1",
  "eu-west-2",
  "eu-west-1",
  "ap-northeast-3",
  "ap-northeast-2",
  "ap-northeast-1",
  "sa-east-1",
  "ca-central-1",
  "ap-southeast-1",
  "ap-southeast-2",
  "eu-central-1",
  "us-east-1",
  "us-east-2",
  "us-west-1",
  "us-west-2",
  "cn-north-1",
  "cn-northwest-1"]

/-- `availability_zone_to_region`: scan `REGIONS` in declared order and
return the first entry that is a literal prefix of the availability
zone; if none matches, fail with `UnknownAvailabilityZone` carrying the
input. -/
def availability_zone_to_region (availability_zone : String) : Except Error String :=
  match REGIONS.find? (fun region => strStartsWith availability_zone region) with
  | some region => .ok region
  | none => .error (.UnknownAvailabilityZone availability_zone)

/-- Values of the `json` crate's `JsonValue` (the crate's `Short` and
`String` variants are both `str`; numbers are kept as the text their
serialisation renders). -/
inductive JsonValue where
  | null
  | boolean (b : Bool)
  | number (text : String)
  | str (s : String)
  | array (items : List JsonValue)
  | object (entries : List (String × JsonValue))

mutual

/-- The `json` crate's `dump()` serialisation (string escaping is not
modelled; no claim exercises it). -/
def JsonValue.dump : JsonValue → String
  | .null => "null"
  | .boolean true => "true"
  | .boolean false => "false"
  | .number text => text
  | .str s => "\"" ++ s ++ "\""
  | .array items => "[" ++ JsonValue.dumpItems items ++ "]"
  | .object entries => "\x7b" ++ JsonValue.dumpEntries entries ++ "\x7d"

/-- Comma-separated serialisation of an array's items. -/
def JsonValue.dumpItems : List JsonValue → String
  | [] => ""
  | [v] => v.dump
  | v :: rest => v.dump ++ "," ++ JsonValue.dumpItems rest

/-- Comma-separated serialisation of an object's entries. -/
def JsonValue.dumpEntries : List (String × JsonValue) → String
  | [] => ""
  | [(k, v)] => "\"" ++ k ++ "\":" ++ v.dump
  | (k, v) :: rest => "\"" ++ k ++ "\":" ++ v.dump ++ "," ++ JsonValue.dumpEntries rest

end

/-- The `json` crate's `Display` for `JsonValue` (what `.to_string()`
yields): a string value displays as its raw text, every other value as
its `dump()` serialisation (so `null` displays as `"null"`). -/
def JsonValue.display : JsonValue → String
  | .str s => s
  | v => v.dump

/-- The `json` crate's `Index<&str>` for `JsonValue`: on an object,
the value at the key (or `null` when absent); on anything else, `null`. -/
def JsonValue.index (v : JsonValue) (key : String) : JsonValue :=
  match v with
  | .object entries =>
    match entries.find? (fun e => e.1 = key) with
    | some e => e.2
    | none => .null
  | _ => .null

/-- The `json` crate's `parse` entry point, abstracted: an arbitrary
function from input text to a parsed value or a parse-error diagnostic
(the text `format!("{:?}", error)` would render). -/
def JsonParse : Type := String → Except String JsonValue

/-- `identity_credentials_to_account_id`: parse the identity-credentials
body as JSON (a parse failure is converted by `From<json::Error>` into
`Error::JsonError`) and return the stringified value at the top-level
key `AccountId`. -/
def identity_credentials_to_account_id (parse : JsonParse) (ident_creds : String) :
    Except Error String :=
  match parse ident_creds with
  | .error diag => .error (.JsonError diag)
  | .ok parsed => .ok ((parsed.index "AccountId").display)

/-- The HTTP transport as the client observes it: the outcome of the
PUT to the token endpoint, and the outcome of a GET to each metadata
URL.  (A deterministic mock: each URL has one outcome per `get` run.) -/
structure Transport where
  tokenResp : CallResult
  getResp : MetadataUrls → CallResult

/-- `get_token`: PUT to the token endpoint; a call failure becomes
`HttpRequest` with the transport's diagnostic text (via
`From<ureq::Error>`), a body-read failure becomes `IoError` (via the
`?` on `into_string()`), and otherwise the raw body is the token. -/
def InstanceMetadataClient.get_token (t : Transport) : Except Error String :=
  match t.tokenResp with
  | .failed diag => .error (.HttpRequest diag)
  | .succeeded (.error diag) => .error (.IoError diag)
  | .succeeded (.ok body) => .ok body

/-- The output record (`InstanceMetadata` struct of the source). -/
structure InstanceMetadata where
  region : String
  availability_zone : String
  instance_id : String
  account_id : String
  ami_id : String
  instance_type : String
  hostname : String
  local_hostname : String
  public_hostname : Option String
deriving DecidableEq

/-- `InstanceMetadataClient::get`, instrumented with the list of GET
requests it issues (in order, by URL; the token PUT is not a GET).
The control flow mirrors the source exactly: token first, then one GET
per field in the order instance_id, account_id (with the JSON
extractor), ami_id, availability_zone (with the region resolver),
instance_type, hostname, local_hostname, public_hostname.  A failed
call on a non-optional field early-returns `NotFound` with that field's
URL; a failed body read early-returns `IoError` (the `?` operator) —
including on public_hostname, whose body read sits inside
`Some(resp.into_string()?)`; a failed call on public_hostname yields
`None` instead of an error. -/
def InstanceMetadataClient.getT (parse : JsonParse) (t : Transport) :
    Except Error InstanceMetadata × List String :=
  match InstanceMetadataClient.get_token t with
  | .error e => (.error e, [])
  | .ok _token =>
  match t.getResp .InstanceId with
  | .failed _ => (.error (.NotFound (urlOf .InstanceId)), [urlOf .InstanceId])
  | .succeeded (.error diag) => (.error (.IoError diag), [urlOf .InstanceId])
  | .succeeded (.ok instance_id) =>
  match t.getResp .AccountId with
  | .failed _ => (.error (.NotFound (urlOf .AccountId)),
      [urlOf .InstanceId, urlOf .AccountId])
  | .succeeded (.error diag) => (.error (.IoError diag),
      [urlOf .InstanceId, urlOf .AccountId])
  | .succeeded (.ok ident_creds) =>
  match identity_credentials_to_account_id parse ident_creds with
  | .error e => (.error e, [urlOf .InstanceId, urlOf .AccountId])
  | .ok account_id =>
  match t.getResp .AmiId with
  | .failed _ => (.error (.NotFound (urlOf .AmiId)),
      [urlOf .InstanceId, urlOf .AccountId, urlOf .AmiId])
  | .succeeded (.error diag) => (.error (.IoError diag),
      [urlOf .InstanceId, urlOf .AccountId, urlOf .AmiId])
  | .succeeded (.ok ami_id) =>
  match t.getResp .AvailabilityZone with
  | .failed _ => (.error (.NotFound (urlOf .AvailabilityZone)),
      [urlOf .InstanceId, urlOf .AccountId, urlOf .AmiId, urlOf .AvailabilityZone])
  | .succeeded (.error diag) => (.error (.IoError diag),
      [urlOf .InstanceId, urlOf .AccountId, urlOf .AmiId, urlOf .AvailabilityZone])
  | .succeeded (.ok availability_zone) =>
  match availability_zone_to_region availability_zone with
  | .error e => (.error e,
      [urlOf .InstanceId, urlOf .AccountId, urlOf .AmiId, urlOf .AvailabilityZone])
  | .ok region =>
  match t.getResp .InstanceType with
  | .failed _ => (.error (.NotFound (urlOf .InstanceType)),
      [urlOf .InstanceId, urlOf .AccountId, urlOf .AmiId, urlOf .AvailabilityZone,
       urlOf .InstanceType])
  | .succeeded (.error diag) => (.error (.IoError diag),
      [urlOf .InstanceId, urlOf .AccountId, urlOf .AmiId, urlOf .AvailabilityZone,
       urlOf .InstanceType])
  | .succeeded (.ok instance_type) =>
  match t.getResp .Hostname with
  | .failed _ => (.error (.NotFound (urlOf .Hostname)),
      [urlOf .InstanceId, urlOf .AccountId, urlOf .AmiId, urlOf .AvailabilityZone,
       urlOf .InstanceType, urlOf .Hostname])
  | .succeeded (.error diag) => (.error (.IoError diag),
      [urlOf .InstanceId, urlOf .AccountId, urlOf .AmiId, urlOf .AvailabilityZone,
       urlOf .InstanceType, urlOf .Hostname])
  | .succeeded (.ok hostname) =>
  match t.getResp .LocalHostname with
  | .failed _ => (.error (.NotFound (urlOf .LocalHostname)),
      [urlOf .InstanceId, urlOf .AccountId, urlOf .AmiId, urlOf .AvailabilityZone,
       urlOf .InstanceType, urlOf .Hostname, urlOf .LocalHostname])
  | .succeeded (.error diag) => (.error (.IoError diag),
      [urlOf .InstanceId, urlOf .AccountId, urlOf .AmiId, urlOf .AvailabilityZone,
       urlOf .InstanceType, urlOf .Hostname, urlOf .LocalHostname])
  | .succeeded (.ok local_hostname) =>
  match t.getResp .PublicHostname with
  | .failed _ =>
      (.ok { region, availability_zone, instance_id, account_id, ami_id,
             instance_type, hostname, local_hostname, public_hostname := none },
       [urlOf .InstanceId, urlOf .AccountId, urlOf .AmiId, urlOf .AvailabilityZone,
        urlOf .InstanceType, urlOf .Hostname, urlOf .LocalHostname,
        urlOf .PublicHostname])
  | .succeeded (.error diag) => (.error (.IoError diag),
      [urlOf .InstanceId, urlOf .AccountId, urlOf .AmiId, urlOf .AvailabilityZone,
       urlOf .InstanceType, urlOf .Hostname, urlOf .LocalHostname,
       urlOf .PublicHostname])
  | .succeeded (.ok public_hostname) =>
      (.ok { region, availability_zone, instance_id, account_id, ami_id,
             instance_type, hostname, local_hostname,
             public_hostname := some public_hostname },
       [urlOf .InstanceId, urlOf .AccountId, urlOf .AmiId, urlOf .AvailabilityZone,
        urlOf .InstanceType, urlOf .Hostname, urlOf .LocalHostname,
        urlOf .PublicHostname])

/-- `InstanceMetadataClient::get`: the result of the fetch sequence. -/
def InstanceMetadataClient.get (parse : JsonParse) (t : Transport) : Except Error InstanceMetadata :=
  (InstanceMetadataClient.getT parse t).1

/-- The GET requests `get` issues, in order, by URL. -/
def InstanceMetadataClient.issuedGets (parse : JsonParse) (t : Transport) : List String :=
  (InstanceMetadataClient.getT parse t).2

/-- The order in which `get` fetches the metadata fields (the order the
requests appear in the source). -/
def fetchOrder : List MetadataUrls :=
  [.InstanceId, .AccountId, .AmiId, .AvailabilityZone, .InstanceType,
   .Hostname, .LocalHostname, .PublicHostname]

/-- Position of a field in the fetch order. -/
def idx : MetadataUrls → Nat
  | .InstanceId => 0
  | .AccountId => 1
  | .AmiId => 2
  | .AvailabilityZone => 3
  | .InstanceType => 4
  | .Hostname => 5
  | .LocalHostname => 6
  | .PublicHostname => 7

/-- The URLs of the fetch order up to and including a field. -/
def urlsUpTo (f : MetadataUrls) : List String :=
  (fetchOrder.take (idx f + 1)).map urlOf

/-- A field's fetch fully succeeds on a transport: the call succeeds,
the body is read, and the per-field post-processing (the JSON extractor
for account_id, the region resolver for availability_zone) succeeds. -/
def fieldOk (parse : JsonParse) (t : Transport) (g : MetadataUrls) : Prop :=
  ∃ b, t.getResp g = .succeeded (.ok b) ∧
    (g = .AccountId → ∃ a, identity_credentials_to_account_id parse b = .ok a) ∧
    (g = .AvailabilityZone → ∃ r, availability_zone_to_region b = .ok r)

/-- A mock JSON parser: accepts exactly the canned identity-credentials
body and rejects everything else. -/
def pDemo : JsonParse := fun s =>
  if s = "\x7b\"AccountId\":\"123456789012\"\x7d" then
    .ok (.object [("AccountId", .str "123456789012")])
  else
    .error "UnexpectedCharacter"

/-- A mock JSON parser that parses every input as an empty JSON object
(no `AccountId` key). -/
def pNull : JsonParse := fun _ => .ok (.object [])

/-- Mock transport: every endpoint serves a canned 200 body except
public_hostname, whose GET fails with a 404. -/
def tDemo : Transport where
  tokenResp := .succeeded (.ok "tok")
  getResp
    | .InstanceId => .succeeded (.ok "i-0abc")
    | .AccountId => .succeeded (.ok "\x7b\"AccountId\":\"123456789012\"\x7d")
    | .AmiId => .succeeded (.ok "ami-1")
    | .AvailabilityZone => .succeeded (.ok "us-east-1a")
    | .InstanceType => .succeeded (.ok "t2.micro")
    | .Hostname => .succeeded (.ok "host")
    | .LocalHostname => .succeeded (.ok "local-host")
    | .PublicHostname => .failed "status 404"

/-- The record `get` assembles on `tDemo`. -/
def mdDemo : InstanceMetadata where
  region := "us-east-1"
  availability_zone := "us-east-1a"
  instance_id := "i-0abc"
  account_id := "123456789012"
  ami_id := "ami-1"
  instance_type := "t2.micro"
  hostname := "host"
  local_hostname := "local-host"
  public_hostname := none

/-- Mock transport like `tDemo` except that the instance_type GET fails
with a 404 (the spec's instance-type end-to-end scenario). -/
def tTypeFail : Transport where
  tokenResp := .succeeded (.ok "tok")
  getResp
    | .InstanceId => .succeeded (.ok "i-0abc")
    | .AccountId => .succeeded (.ok "\x7b\"AccountId\":\"123456789012\"\x7d")
    | .AmiId => .succeeded (.ok "ami-1")
    | .AvailabilityZone => .succeeded (.ok "us-east-1a")
    | .InstanceType => .failed "status 404"
    | .Hostname => .succeeded (.ok "host")
    | .LocalHostname => .succeeded (.ok "local-host")
    | .PublicHostname => .failed "status 404"

/-- Mock transport whose instance-id response arrives (2xx) but whose
body read fails with an I/O error. -/
def tReadFail : Transport where
  tokenResp := .succeeded (.ok "tok")
  getResp
    | .InstanceId => .succeeded (.error "read failed")
    | _ => .failed "unreached"

/-- Mock transport like `tDemo` except that the public_hostname response
arrives (2xx) but its body read fails with an I/O error. -/
def tPublicReadFail : Transport where
  tokenResp := .succeeded (.ok "tok")
  getResp
    | .InstanceId => .succeeded (.ok "i-0abc")
    | .AccountId => .succeeded (.ok "\x7b\"AccountId\":\"123456789012\"\x7d")
    | .AmiId => .succeeded (.ok "ami-1")
    | .AvailabilityZone => .succeeded (.ok "us-east-1a")
    | .InstanceType => .succeeded (.ok "t2.micro")
    | .Hostname => .succeeded (.ok "host")
    | .LocalHostname => .succeeded (.ok "local-host")
    | .PublicHostname => .succeeded (.error "read failed")

/-- Mock transport whose token PUT fails. -/
def tTokenFail : Transport where
  tokenResp := .failed "connect timeout"
  getResp := fun _ => .succeeded (.ok "unreached")

/-- Mock transport serving empty 200 bodies everywhere it can (the
availability zone must still resolve) and an identity-credentials body
that `pNull` parses as an object without an `AccountId` key. -/
def tEmptyBodies : Transport where
  tokenResp := .succeeded (.ok "tok")
  getResp
    | .AvailabilityZone => .succeeded (.ok "us-east-1a")
    | .PublicHostname => .failed "status 404"
    | _ => .succeeded (.ok "")

/-- The record `get` assembles on `tEmptyBodies` with `pNull`. -/
def mdEmpty : InstanceMetadata where
  region := "us-east-1"
  availability_zone := "us-east-1a"
  instance_id := ""
  account_id := "null"
  ami_id := ""
  instance_type := ""
  hostname := ""
  local_hostname := ""
  public_hostname := none

/-- Two prefixes (as `isPrefixOf`) of one character list are comparable:
one of them is a prefix of the other. -/
lemma isPrefixOf_comparable (a b c : List Char) (h1 : a.isPrefixOf c = true)
    (h2 : b.isPrefixOf c = true) : a.isPrefixOf b = true ∨ b.isPrefixOf a = true := by
  rw [ List.isPrefixOf_iff_prefix] at h1 h2 ⊢
  rw [ List.isPrefixOf_iff_prefix]
  exact List.prefix_or_prefix_of_prefix h1 h2

/-- No entry of the region table is a literal prefix of a different
entry (an entry is trivially a prefix of itself). -/
lemma REGIONS_mutual_prefix_eq :
    ∀ a ∈ REGIONS, ∀ b ∈ REGIONS, a.data.isPrefixOf b.data = true → a = b := by
  decide

/-- Every entry of the region table is a non-empty string. -/
lemma REGIONS_nonempty : ∀ r ∈ REGIONS, 0 < r.length := by decide

/-- What a successful region resolution guarantees: the result is a
table entry and a literal prefix of the input. -/
lemma azr_ok_facts {az r : String} (h : availability_zone_to_region az = .ok r) :
    r ∈ REGIONS ∧ strStartsWith az r = true := by
  unfold availability_zone_to_region at h
  cases hf : REGIONS.find? (fun region => strStartsWith az region) with
  | none => rw [hf] at h; exact absurd h (by simp)
  | some x =>
    rw [hf] at h
    simp only [Except.ok.injEq] at h
    subst h
    exact ⟨List.mem_of_find?_eq_some hf, List.find?_some hf⟩

/-- C3: for every availability-zone string `az` and every entry `r` of
the region table, if `az` starts with `r` as a literal prefix then
`availability_zone_to_region az` returns `r` (the declared table order
scans first, and since no entry is a prefix of another the first match
is `r` itself). -/
theorem azr_returns_matching_region (az r : String) (hr : r ∈ REGIONS)
    (hs : strStartsWith az r = true) :
    availability_zone_to_region az = .ok r := by
  unfold availability_zone_to_region
  cases hf : REGIONS.find? (fun region => strStartsWith az region) with
  | none =>
    rw [List.find?_eq_none] at hf
    exact absurd hs (hf r hr)
  | some x =>
    have hx1 : x ∈ REGIONS := List.mem_of_find?_eq_some hf
    have hx2 : strStartsWith az x = true := List.find?_some hf
    have hxr : x = r := by
      unfold strStartsWith at hx2 hs
      rcases isPrefixOf_comparable x.data r.data az.data hx2 hs with h | h
      · exact REGIONS_mutual_prefix_eq x hx1 r hr h
      · exact (REGIONS_mutual_prefix_eq r hr x hx1 h).symm
    rw [hxr]

/-- Witness for C3 at the spec's example: zone "us-east-1a" resolves to
region "us-east-1". -/
theorem azr_returns_matching_region_witness :
    availability_zone_to_region "us-east-1a" = .ok "us-east-1" :=
  azr_returns_matching_region "us-east-1a" "us-east-1" (by decide) (by decide)

/-- C4: `availability_zone_to_region` fails exactly when no region-table
entry is a literal prefix of the input, and the error is then
`UnknownAvailabilityZone` carrying exactly the offending input. -/
theorem azr_error_characterization (az : String) (e : Error) :
    availability_zone_to_region az = .error e ↔
      (e = .UnknownAvailabilityZone az ∧ ∀ r ∈ REGIONS, strStartsWith az r = false) := by
  unfold availability_zone_to_region
  cases hf : REGIONS.find? (fun region => strStartsWith az region) with
  | none =>
    rw [List.find?_eq_none] at hf
    simp only [Except.error.injEq]
    constructor
    · intro h
      refine ⟨h.symm, fun r hr => ?_⟩
      have := hf r hr
      revert this
      cases strStartsWith az r <;> simp
    · intro h
      exact h.1.symm
  | some x =>
    have hx1 : x ∈ REGIONS := List.mem_of_find?_eq_some hf
    have hx2 : strStartsWith az x = true := List.find?_some hf
    constructor
    · intro h
      exact absurd h (by simp)
    · intro h
      rw [h.2 x hx1] at hx2
      exact absurd hx2 (by simp)

/-- Witness for C4 at the spec's example: "xx-west-1" matches no entry
and fails with `UnknownAvailabilityZone "xx-west-1"`. -/
theorem azr_error_characterization_witness :
    availability_zone_to_region "xx-west-1" =
      .error (.UnknownAvailabilityZone "xx-west-1") :=
  (azr_error_characterization "xx-west-1"
    (.UnknownAvailabilityZone "xx-west-1")).mpr ⟨rfl, by decide⟩

/-- C9: the region table is a fixed ordered list of exactly 19 entries
containing "us-east-1", "eu-west-1" and "cn-north-1"; no entry is a
literal prefix of a different entry, so for any availability-zone
string at most one entry can match. -/
theorem REGIONS_table_shape :
    REGIONS.length = 19 ∧
    "us-east-1" ∈ REGIONS ∧ "eu-west-1" ∈ REGIONS ∧ "cn-north-1" ∈ REGIONS ∧
    (∀ a ∈ REGIONS, ∀ b ∈ REGIONS, a ≠ b → a.data.isPrefixOf b.data = false) ∧
    (∀ z : String, ∀ a ∈ REGIONS, ∀ b ∈ REGIONS,
      strStartsWith z a = true → strStartsWith z b = true → a = b) := by
  refine ⟨by decide, by decide, by decide, by decide, by decide, ?_⟩
  intro z a ha b hb hza hzb
  unfold strStartsWith at hza hzb
  rcases isPrefixOf_comparable a.data b.data z.data hza hzb with h | h
  · exact REGIONS_mutual_prefix_eq a ha b hb h
  · exact (REGIONS_mutual_prefix_eq b hb a ha h).symm

/-- C5: on any input the abstract JSON parser accepts, the extractor
returns the `Display` rendering of the parsed value indexed at the
top-level key `AccountId`; on any input the parser rejects, it fails
with `JsonError` (carrying the parser's diagnostic) and never with any
other error kind. -/
theorem extractor_characterization (parse : JsonParse) (s : String) :
    (∀ v, parse s = .ok v →
      identity_credentials_to_account_id parse s = .ok ((v.index "AccountId").display)) ∧
    (∀ diag, parse s = .error diag →
      identity_credentials_to_account_id parse s = .error (.JsonError diag)) := by
  constructor
  · intro v hv
    unfold identity_credentials_to_account_id
    rw [hv]
  · intro diag hd
    unfold identity_credentials_to_account_id
    rw [hd]

/-- Witness/example for C5: the spec's two concrete cases, obtained by
instantiating the characterization at the mock parser: a body with
`AccountId` set to "123456789012" extracts exactly that string, and a
body the parser rejects fails with `JsonError`. -/
theorem extractor_characterization_example :
    identity_credentials_to_account_id pDemo
      "\x7b\"AccountId\":\"123456789012\"\x7d" = .ok "123456789012" ∧
    identity_credentials_to_account_id pDemo "not json" =
      .error (.JsonError "UnexpectedCharacter") :=
  ⟨(extractor_characterization pDemo "\x7b\"AccountId\":\"123456789012\"\x7d").1
      (.object [("AccountId", .str "123456789012")]) rfl,
   (extractor_characterization pDemo "not json").2 "UnexpectedCharacter" rfl⟩

/-- Computation of a fully successful run of `get`: when the token and
every field fetch succeed (and the extractor and resolver succeed), the
assembled record holds exactly the endpoint bodies and all eight GETs
are issued in order. -/
lemma getT_ok_run (parse : JsonParse) (t : Transport)
    (tok b_ii b_ic acct b_ami b_az reg b_it b_h b_lh : String)
    (ph : Option String)
    (htok : InstanceMetadataClient.get_token t = .ok tok)
    (h1 : t.getResp .InstanceId = .succeeded (.ok b_ii))
    (h2 : t.getResp .AccountId = .succeeded (.ok b_ic))
    (h2x : identity_credentials_to_account_id parse b_ic = .ok acct)
    (h3 : t.getResp .AmiId = .succeeded (.ok b_ami))
    (h4 : t.getResp .AvailabilityZone = .succeeded (.ok b_az))
    (h4x : availability_zone_to_region b_az = .ok reg)
    (h5 : t.getResp .InstanceType = .succeeded (.ok b_it))
    (h6 : t.getResp .Hostname = .succeeded (.ok b_h))
    (h7 : t.getResp .LocalHostname = .succeeded (.ok b_lh))
    (h8 : (∃ d, t.getResp .PublicHostname = .failed d ∧ ph = none) ∨
          (∃ b, t.getResp .PublicHostname = .succeeded (.ok b) ∧ ph = some b)) :
    InstanceMetadataClient.getT parse t =
      (.ok { region := reg, availability_zone := b_az, instance_id := b_ii,
             account_id := acct, ami_id := b_ami, instance_type := b_it,
             hostname := b_h, local_hostname := b_lh, public_hostname := ph },
       fetchOrder.map urlOf) := by
  rcases h8 with ⟨d, h8, rfl⟩ | ⟨b, h8, rfl⟩ <;>
    simp [InstanceMetadataClient.getT, htok, h1, h2, h2x, h3, h4, h4x, h5, h6, h7, h8,
      fetchOrder]


/-- Inversion of a successful run of `get`: the token and every
non-optional field fetch succeeded, each record field is the
corresponding endpoint body (account_id the extractor's output, region
the resolver's output), and public_hostname is `none` exactly when its
call failed and the body otherwise. -/
lemma getT_ok_shape (parse : JsonParse) (t : Transport) (md : InstanceMetadata)
    (h : (InstanceMetadataClient.getT parse t).1 = .ok md) :
    ∃ b_ii b_ic b_ami b_az b_it b_h b_lh,
      t.getResp .InstanceId = .succeeded (.ok b_ii) ∧ md.instance_id = b_ii ∧
      t.getResp .AccountId = .succeeded (.ok b_ic) ∧
        identity_credentials_to_account_id parse b_ic = .ok md.account_id ∧
      t.getResp .AmiId = .succeeded (.ok b_ami) ∧ md.ami_id = b_ami ∧
      t.getResp .AvailabilityZone = .succeeded (.ok b_az) ∧ md.availability_zone = b_az ∧
        availability_zone_to_region b_az = .ok md.region ∧
      t.getResp .InstanceType = .succeeded (.ok b_it) ∧ md.instance_type = b_it ∧
      t.getResp .Hostname = .succeeded (.ok b_h) ∧ md.hostname = b_h ∧
      t.getResp .LocalHostname = .succeeded (.ok b_lh) ∧ md.local_hostname = b_lh ∧
      ((∃ d, t.getResp .PublicHostname = .failed d ∧ md.public_hostname = none) ∨
       (∃ b, t.getResp .PublicHostname = .succeeded (.ok b) ∧ md.public_hostname = some b)) := by
  unfold InstanceMetadataClient.getT at h
  cases h0 : InstanceMetadataClient.get_token t with
  | error e => simp [h0] at h
  | ok tok =>
  simp only [h0] at h
  cases h1 : t.getResp .InstanceId with
  | failed d => simp [h1] at h
  | succeeded body =>
  cases body with
  | error d => simp [h1] at h
  | ok b_ii =>
  simp only [h1] at h
  cases h2 : t.getResp .AccountId with
  | failed d => simp [h2] at h
  | succeeded body =>
  cases body with
  | error d => simp [h2] at h
  | ok b_ic =>
  simp only [h2] at h
  cases h2x : identity_credentials_to_account_id parse b_ic with
  | error e => simp [h2x] at h
  | ok acct =>
  simp only [h2x] at h
  cases h3 : t.getResp .AmiId with
  | failed d => simp [h3] at h
  | succeeded body =>
  cases body with
  | error d => simp [h3] at h
  | ok b_ami =>
  simp only [h3] at h
  cases h4 : t.getResp .AvailabilityZone with
  | failed d => simp [h4] at h
  | succeeded body =>
  cases body with
  | error d => simp [h4] at h
  | ok b_az =>
  simp only [h4] at h
  cases h4x : availability_zone_to_region b_az with
  | error e => simp [h4x] at h
  | ok reg =>
  simp only [h4x] at h
  cases h5 : t.getResp .InstanceType with
  | failed d => simp [h5] at h
  | succeeded body =>
  cases body with
  | error d => simp [h5] at h
  | ok b_it =>
  simp only [h5] at h
  cases h6 : t.getResp .Hostname with
  | failed d => simp [h6] at h
  | succeeded body =>
  cases body with
  | error d => simp [h6] at h
  | ok b_h =>
  simp only [h6] at h
  cases h7 : t.getResp .LocalHostname with
  | failed d => simp [h7] at h
  | succeeded body =>
  cases body with
  | error d => simp [h7] at h
  | ok b_lh =>
  simp only [h7] at h
  cases h8 : t.getResp .PublicHostname with
  | failed d =>
    simp only [h8, Except.ok.injEq] at h
    subst h
    exact ⟨b_ii, b_ic, b_ami, b_az, b_it, b_h, b_lh, rfl, rfl, rfl, h2x, rfl, rfl,
      rfl, rfl, h4x, rfl, rfl, rfl, rfl, rfl, rfl, .inl ⟨d, rfl, rfl⟩⟩
  | succeeded body =>
  cases body with
  | error d => simp [h8] at h
  | ok b_ph =>
  simp only [h8, Except.ok.injEq] at h
  subst h
  exact ⟨b_ii, b_ic, b_ami, b_az, b_it, b_h, b_lh, rfl, rfl, rfl, h2x, rfl, rfl,
    rfl, rfl, h4x, rfl, rfl, rfl, rfl, rfl, rfl, .inr ⟨b_ph, rfl, rfl⟩⟩

/-- C6: if the token PUT fails (transport failure or non-success
status), `get_token` fails with `HttpRequest` carrying the transport's
diagnostic text, `get` propagates that failure unchanged, and zero GET
requests are issued. -/
theorem token_failure_propagates (parse : JsonParse) (t : Transport) (d : String)
    (hd : t.tokenResp = .failed d) :
    InstanceMetadataClient.get_token t = .error (.HttpRequest d) ∧
    InstanceMetadataClient.getT parse t = (.error (.HttpRequest d), []) := by
  have htok : InstanceMetadataClient.get_token t = .error (.HttpRequest d) := by
    unfold InstanceMetadataClient.get_token
    rw [hd]
  exact ⟨htok, by simp [InstanceMetadataClient.getT, htok]⟩

/-- Witness for C6: a concrete transport whose token PUT times out. -/
theorem token_failure_propagates_witness :
    InstanceMetadataClient.get_token tTokenFail = .error (.HttpRequest "connect timeout") ∧
    InstanceMetadataClient.getT pDemo tTokenFail =
      (.error (.HttpRequest "connect timeout"), []) :=
  token_failure_propagates pDemo tTokenFail "connect timeout" rfl

/-- C2 (amended): a failed public_hostname CALL (transport error or
non-2xx status) is not an error: when the token and all other fields
succeed, `get` returns the complete record with `public_hostname = none`
and every other field populated from its endpoint's body.  (A failed
body READ on public_hostname does abort — see the counterexample.) -/
theorem public_hostname_call_failure_tolerated (parse : JsonParse) (t : Transport)
    (tok b_ii b_ic acct b_ami b_az reg b_it b_h b_lh d : String)
    (htok : InstanceMetadataClient.get_token t = .ok tok)
    (h1 : t.getResp .InstanceId = .succeeded (.ok b_ii))
    (h2 : t.getResp .AccountId = .succeeded (.ok b_ic))
    (h2x : identity_credentials_to_account_id parse b_ic = .ok acct)
    (h3 : t.getResp .AmiId = .succeeded (.ok b_ami))
    (h4 : t.getResp .AvailabilityZone = .succeeded (.ok b_az))
    (h4x : availability_zone_to_region b_az = .ok reg)
    (h5 : t.getResp .InstanceType = .succeeded (.ok b_it))
    (h6 : t.getResp .Hostname = .succeeded (.ok b_h))
    (h7 : t.getResp .LocalHostname = .succeeded (.ok b_lh))
    (h8 : t.getResp .PublicHostname = .failed d) :
    InstanceMetadataClient.get parse t =
      .ok { region := reg, availability_zone := b_az, instance_id := b_ii,
            account_id := acct, ami_id := b_ami, instance_type := b_it,
            hostname := b_h, local_hostname := b_lh, public_hostname := none } := by
  have := getT_ok_run parse t tok b_ii b_ic acct b_ami b_az reg b_it b_h b_lh none
    htok h1 h2 h2x h3 h4 h4x h5 h6 h7 (.inl ⟨d, h8, rfl⟩)
  unfold InstanceMetadataClient.get
  rw [this]

/-- Witness for C2: the spec's end-to-end scenario — canned 200 bodies
everywhere, a 404 on public_hostname — yields the complete record with
`public_hostname = none` and region "us-east-1" derived from body
"us-east-1a". -/
theorem public_hostname_call_failure_tolerated_witness :
    InstanceMetadataClient.get pDemo tDemo = .ok mdDemo :=
  public_hostname_call_failure_tolerated pDemo tDemo "tok" "i-0abc"
    "\x7b\"AccountId\":\"123456789012\"\x7d" "123456789012" "ami-1" "us-east-1a"
    "us-east-1" "t2.micro" "host" "local-host" "status 404"
    rfl rfl rfl rfl rfl rfl rfl rfl rfl rfl rfl

/-- Counterexample to C2 as stated: a body-READ failure on the
public_hostname response is an error — the whole `get` aborts with
`IoError`, no record is returned. -/
theorem public_hostname_read_failure_is_error :
    InstanceMetadataClient.get pDemo tPublicReadFail = .error (.IoError "read failed") :=
  rfl

/-- C8: every record `get` returns has its region drawn from the fixed
region table, and its availability_zone starts with that region as a
literal prefix. -/
theorem get_region_invariant (parse : JsonParse) (t : Transport) (md : InstanceMetadata)
    (h : (InstanceMetadataClient.getT parse t).1 = .ok md) :
    md.region ∈ REGIONS ∧ strStartsWith md.availability_zone md.region = true := by
  obtain ⟨b_ii, b_ic, b_ami, b_az, b_it, b_h, b_lh, _, _, _, _, _, _, _, haz, hreg,
    _, _, _, _, _, _, _⟩ := getT_ok_shape parse t md h
  obtain ⟨hmem, hsw⟩ := azr_ok_facts hreg
  rw [haz]
  exact ⟨hmem, hsw⟩

/-- Witness for C8 at the concrete successful run on `tDemo`. -/
theorem get_region_invariant_witness :
    mdDemo.region ∈ REGIONS ∧ strStartsWith mdDemo.availability_zone mdDemo.region = true :=
  get_region_invariant pDemo tDemo mdDemo rfl

/-- C7 (amended): construction is all-or-nothing except for
public_hostname — a returned record means the token and all seven
non-optional fetches succeeded — and each field holds exactly the raw
endpoint body (which the code never checks for emptiness, so it is
non-empty only if the body was); `region` and `availability_zone` are
guaranteed non-empty, since `region` comes from the table and prefixes
`availability_zone`. -/
theorem get_success_all_or_nothing (parse : JsonParse) (t : Transport)
    (md : InstanceMetadata) (h : (InstanceMetadataClient.getT parse t).1 = .ok md) :
    0 < md.region.length ∧ 0 < md.availability_zone.length ∧
    (∃ b, t.getResp .InstanceId = .succeeded (.ok b) ∧ md.instance_id = b) ∧
    (∃ b, t.getResp .AccountId = .succeeded (.ok b) ∧
      identity_credentials_to_account_id parse b = .ok md.account_id) ∧
    (∃ b, t.getResp .AmiId = .succeeded (.ok b) ∧ md.ami_id = b) ∧
    (∃ b, t.getResp .AvailabilityZone = .succeeded (.ok b) ∧ md.availability_zone = b) ∧
    (∃ b, t.getResp .InstanceType = .succeeded (.ok b) ∧ md.instance_type = b) ∧
    (∃ b, t.getResp .Hostname = .succeeded (.ok b) ∧ md.hostname = b) ∧
    (∃ b, t.getResp .LocalHostname = .succeeded (.ok b) ∧ md.local_hostname = b) := by
  obtain ⟨b_ii, b_ic, b_ami, b_az, b_it, b_h, b_lh, h1, e1, h2, h2x, h3, e3, h4, haz,
    hreg, h5, e5, h6, e6, h7, e7, _⟩ := getT_ok_shape parse t md h
  obtain ⟨hmem, hsw⟩ := azr_ok_facts hreg
  have hrpos : 0 < md.region.length := REGIONS_nonempty md.region hmem
  have hle : md.region.data.length ≤ md.availability_zone.data.length := by
    rw [haz]
    unfold strStartsWith at hsw
    exact (List.isPrefixOf_iff_prefix.mp hsw).length_le
  refine ⟨hrpos, Nat.lt_of_lt_of_le hrpos hle, ⟨b_ii, h1, e1⟩, ⟨b_ic, h2, h2x⟩,
    ⟨b_ami, h3, e3⟩, ⟨b_az, h4, haz⟩, ⟨b_it, h5, e5⟩, ⟨b_h, h6, e6⟩, ⟨b_lh, h7, e7⟩⟩

/-- Witness for C7 at the concrete successful run on `tDemo`. -/
theorem get_success_all_or_nothing_witness :
    0 < mdDemo.region.length ∧ 0 < mdDemo.availability_zone.length ∧
    (∃ b, tDemo.getResp .InstanceId = .succeeded (.ok b) ∧ mdDemo.instance_id = b) ∧
    (∃ b, tDemo.getResp .AccountId = .succeeded (.ok b) ∧
      identity_credentials_to_account_id pDemo b = .ok mdDemo.account_id) ∧
    (∃ b, tDemo.getResp .AmiId = .succeeded (.ok b) ∧ mdDemo.ami_id = b) ∧
    (∃ b, tDemo.getResp .AvailabilityZone = .succeeded (.ok b) ∧
      mdDemo.availability_zone = b) ∧
    (∃ b, tDemo.getResp .InstanceType = .succeeded (.ok b) ∧ mdDemo.instance_type = b) ∧
    (∃ b, tDemo.getResp .Hostname = .succeeded (.ok b) ∧ mdDemo.hostname = b) ∧
    (∃ b, tDemo.getResp .LocalHostname = .succeeded (.ok b) ∧ mdDemo.local_hostname = b) :=
  get_success_all_or_nothing pDemo tDemo mdDemo rfl

/-- Counterexample to C7 as stated: endpoints may serve empty 200
bodies, and `get` then succeeds with empty string fields (here
instance_id, ami_id, instance_type, hostname and local_hostname are all
empty in a successfully returned record). -/
theorem get_success_with_empty_fields :
    InstanceMetadataClient.get pNull tEmptyBodies = .ok mdEmpty ∧
    mdEmpty.instance_id = "" ∧ mdEmpty.hostname = "" :=
  ⟨rfl, rfl, rfl⟩

/-- C10: on any input the parser reads as a JSON object without a
top-level `AccountId` key, the extractor succeeds with the
four-character string "null" (the `json` crate indexes a missing key as
JSON null and displays it as "null") — neither an error nor the empty
string — and any `get` run whose identity-credentials endpoint serves
such a body and that returns a record has `account_id = "null"`. -/
theorem missing_account_id_key_yields_null (parse : JsonParse) (s : String)
    (entries : List (String × JsonValue))
    (hp : parse s = .ok (.object entries))
    (hn : ∀ e ∈ entries, e.1 ≠ "AccountId") :
    identity_credentials_to_account_id parse s = .ok "null" ∧
    ("null" : String) ≠ "" ∧
    (∀ t : Transport, ∀ md : InstanceMetadata,
      t.getResp .AccountId = .succeeded (.ok s) →
      (InstanceMetadataClient.getT parse t).1 = .ok md → md.account_id = "null") := by
  have hfind : entries.find? (fun e => e.1 = "AccountId") = none := by
    rw [List.find?_eq_none]
    intro e he
    simp only [decide_eq_true_eq]
    exact hn e he
  have hext : identity_credentials_to_account_id parse s = .ok "null" := by
    unfold identity_credentials_to_account_id JsonValue.index
    simp only [hp, hfind]
    rfl
  refine ⟨hext, by decide, ?_⟩
  intro t md hacct hok
  obtain ⟨b_ii, b_ic, b_ami, b_az, b_it, b_h, b_lh, _, _, h2, h2x, _⟩ :=
    getT_ok_shape parse t md hok
  rw [hacct] at h2
  have hsb : s = b_ic := by
    injection h2 with h2
    injection h2
  rw [← hsb] at h2x
  rw [hext] at h2x
  injection h2x with h2x
  exact h2x.symm

/-- Witness for C10: the mock parser that reads every body as an empty
JSON object makes the extractor return "null". -/
theorem missing_account_id_key_yields_null_witness :
    identity_credentials_to_account_id pNull "" = .ok "null" ∧
    ("null" : String) ≠ "" ∧
    (∀ t : Transport, ∀ md : InstanceMetadata,
      t.getResp .AccountId = .succeeded (.ok "") →
      (InstanceMetadataClient.getT pNull t).1 = .ok md → md.account_id = "null") :=
  missing_account_id_key_yields_null pNull "" [] rfl (by simp)

/-- C1 (amended): for every field except public_hostname, once the
sequence reaches that field (token obtained, all earlier fields fully
succeeded), a request failure immediately aborts the whole `get` and no
request for any later field in the order instance_id, account_id,
ami_id, availability_zone, instance_type, hostname, local_hostname,
public_hostname is issued; a failed CALL (transport error or non-2xx
status) returns `NotFound` with the failed field's URL, while a failed
body READ returns `IoError` with the read's diagnostic (not
`NotFound` — see the counterexample). -/
theorem get_request_failure_short_circuits (parse : JsonParse) (t : Transport)
    (f : MetadataUrls) (tok d : String) (out : Error)
    (hf : f ≠ .PublicHostname)
    (htok : InstanceMetadataClient.get_token t = .ok tok)
    (hearlier : ∀ g, idx g < idx f → fieldOk parse t g)
    (hfail : (t.getResp f = .failed d ∧ out = .NotFound (urlOf f)) ∨
             (t.getResp f = .succeeded (.error d) ∧ out = .IoError d)) :
    InstanceMetadataClient.getT parse t = (.error out, urlsUpTo f) := by
  cases f with
  | PublicHostname => exact absurd rfl hf
  | InstanceId =>
    rcases hfail with ⟨hc, rfl⟩ | ⟨hc, rfl⟩ <;>
      simp [InstanceMetadataClient.getT, htok, hc, urlsUpTo, fetchOrder, idx]
  | AccountId =>
    obtain ⟨b0, h0, -, -⟩ := hearlier .InstanceId (by decide)
    rcases hfail with ⟨hc, rfl⟩ | ⟨hc, rfl⟩ <;>
      simp [InstanceMetadataClient.getT, htok, h0, hc, urlsUpTo, fetchOrder, idx]
  | AmiId =>
    obtain ⟨b0, h0, -, -⟩ := hearlier .InstanceId (by decide)
    obtain ⟨b1, h1, hacct, -⟩ := hearlier .AccountId (by decide)
    obtain ⟨a1, ha1⟩ := hacct rfl
    rcases hfail with ⟨hc, rfl⟩ | ⟨hc, rfl⟩ <;>
      simp [InstanceMetadataClient.getT, htok, h0, h1, ha1, hc, urlsUpTo, fetchOrder, idx]
  | AvailabilityZone =>
    obtain ⟨b0, h0, -, -⟩ := hearlier .InstanceId (by decide)
    obtain ⟨b1, h1, hacct, -⟩ := hearlier .AccountId (by decide)
    obtain ⟨a1, ha1⟩ := hacct rfl
    obtain ⟨b2, h2, -, -⟩ := hearlier .AmiId (by decide)
    rcases hfail with ⟨hc, rfl⟩ | ⟨hc, rfl⟩ <;>
      simp [InstanceMetadataClient.getT, htok, h0, h1, ha1, h2, hc, urlsUpTo,
        fetchOrder, idx]
  | InstanceType =>
    obtain ⟨b0, h0, -, -⟩ := hearlier .InstanceId (by decide)
    obtain ⟨b1, h1, hacct, -⟩ := hearlier .AccountId (by decide)
    obtain ⟨a1, ha1⟩ := hacct rfl
    obtain ⟨b2, h2, -, -⟩ := hearlier .AmiId (by decide)
    obtain ⟨b3, h3, -, hreg⟩ := hearlier .AvailabilityZone (by decide)
    obtain ⟨r3, hr3⟩ := hreg rfl
    rcases hfail with ⟨hc, rfl⟩ | ⟨hc, rfl⟩ <;>
      simp [InstanceMetadataClient.getT, htok, h0, h1, ha1, h2, h3, hr3, hc, urlsUpTo,
        fetchOrder, idx]
  | Hostname =>
    obtain ⟨b0, h0, -, -⟩ := hearlier .InstanceId (by decide)
    obtain ⟨b1, h1, hacct, -⟩ := hearlier .AccountId (by decide)
    obtain ⟨a1, ha1⟩ := hacct rfl
    obtain ⟨b2, h2, -, -⟩ := hearlier .AmiId (by decide)
    obtain ⟨b3, h3, -, hreg⟩ := hearlier .AvailabilityZone (by decide)
    obtain ⟨r3, hr3⟩ := hreg rfl
    obtain ⟨b4, h4, -, -⟩ := hearlier .InstanceType (by decide)
    rcases hfail with ⟨hc, rfl⟩ | ⟨hc, rfl⟩ <;>
      simp [InstanceMetadataClient.getT, htok, h0, h1, ha1, h2, h3, hr3, h4, hc,
        urlsUpTo, fetchOrder, idx]
  | LocalHostname =>
    obtain ⟨b0, h0, -, -⟩ := hearlier .InstanceId (by decide)
    obtain ⟨b1, h1, hacct, -⟩ := hearlier .AccountId (by decide)
    obtain ⟨a1, ha1⟩ := hacct rfl
    obtain ⟨b2, h2, -, -⟩ := hearlier .AmiId (by decide)
    obtain ⟨b3, h3, -, hreg⟩ := hearlier .AvailabilityZone (by decide)
    obtain ⟨r3, hr3⟩ := hreg rfl
    obtain ⟨b4, h4, -, -⟩ := hearlier .InstanceType (by decide)
    obtain ⟨b5, h5, -, -⟩ := hearlier .Hostname (by decide)
    rcases hfail with ⟨hc, rfl⟩ | ⟨hc, rfl⟩ <;>
      simp [InstanceMetadataClient.getT, htok, h0, h1, ha1, h2, h3, hr3, h4, h5, hc,
        urlsUpTo, fetchOrder, idx]

/-- Witness for C1 at the spec's instance-type scenario: the
instance_type GET fails with a 404; `get` returns
`NotFound(…/instance-type)` and exactly the five requests up to and
including instance-type were issued (hostname, local_hostname and
public_hostname are never requested). -/
theorem get_request_failure_short_circuits_witness :
    InstanceMetadataClient.getT pDemo tTypeFail =
      (.error (.NotFound (urlOf .InstanceType)), urlsUpTo .InstanceType) :=
  get_request_failure_short_circuits pDemo tTypeFail .InstanceType "tok" "status 404"
    (.NotFound (urlOf .InstanceType)) (by decide) rfl
    (fun g hg => by
      cases g with
      | InstanceId => exact ⟨"i-0abc", rfl, fun hh => absurd hh (by decide), fun hh => absurd hh (by decide)⟩
      | AccountId => exact ⟨"\x7b\"AccountId\":\"123456789012\"\x7d", rfl,
          fun _ => ⟨"123456789012", rfl⟩, fun hh => absurd hh (by decide)⟩
      | AmiId => exact ⟨"ami-1", rfl, fun hh => absurd hh (by decide), fun hh => absurd hh (by decide)⟩
      | AvailabilityZone => exact ⟨"us-east-1a", rfl, fun hh => absurd hh (by decide),
          fun _ => ⟨"us-east-1", rfl⟩⟩
      | InstanceType => exact absurd hg (by decide)
      | Hostname => exact absurd hg (by decide)
      | LocalHostname => exact absurd hg (by decide)
      | PublicHostname => exact absurd hg (by decide))
    (.inl ⟨rfl, rfl⟩)

/-- Counterexample to C1 as stated: a response that arrives (2xx) but
whose body read fails aborts the operation with `IoError`, not with a
`NotFound` naming the field's URL. -/
theorem body_read_failure_gives_io_error :
    InstanceMetadataClient.getT pDemo tReadFail =
      (.error (.IoError "read failed"), [urlOf .InstanceId]) ∧
    (InstanceMetadataClient.getT pDemo tReadFail).1 ≠
      .error (.NotFound (urlOf .InstanceId)) :=
  ⟨rfl, by decide⟩
